import Mathlib

/-!
Shallow embedding of the cardinality, schema-generation and list-editing
logic of the IDTA submodel editor frontend, together with a model of the
list-merge step of the hydrator described in the design document.

JavaScript strings are modelled as `List Char`; the string methods the
source uses (`trim`, `startsWith`, `endsWith`, `includes`, regex test) are
defined below on that representation.
-/

/-- Whitespace test backing `String.prototype.trim` (modelled with
`Char.isWhitespace`, which agrees with JS on the whitespace characters that
occur in cardinality strings). -/
def isJsWS (c : Char) : Bool := c.isWhitespace

/-- Drop leading whitespace: one side of `trim`. -/
def ltrimWS (l : List Char) : List Char := l.dropWhile isJsWS

/-- `s.trim()`: drop leading and trailing whitespace. -/
def jsTrim (l : List Char) : List Char := (ltrimWS (ltrimWS l).reverse).reverse

/-- `a.startsWith(b)`: `b` is a prefix of `a`. -/
def strStarts : List Char → List Char → Bool
  | _, [] => true
  | [], _ :: _ => false
  | c :: cs, d :: ds => c == d && strStarts cs ds

/-- `a.endsWith(b)`: `b` is a suffix of `a`. -/
def strEnds (l p : List Char) : Bool := strStarts l.reverse p.reverse

/-- `a.includes(b)`: `b` occurs as a contiguous substring of `a`. -/
def strIncludes : List Char → List Char → Bool
  | [], p => strStarts [] p
  | c :: cs, p => strStarts (c :: cs) p || strIncludes cs p

/-- The `mapping` object literal inside `normalizeCardinality`
(`aas-elements.ts`, declared `Record<string, string>`): own-property lookup
over its five keys.  All values are non-empty, so the truthiness
test the source makes on `mapping[trimmed]` is exactly the `some` case here. -/
def cardinalityAliasMap (t : List Char) : Option (List Char) :=
  if t = "ZeroToOne".data then some "[0..1]".data
  else if t = "ZeroToMany".data then some "[0..*]".data
  else if t = "OneToMany".data then some "[1..*]".data
  else if t = "One".data then some "[1]".data
  else if t = "Zero".data then some "[0]".data
  else none

/-- The regex literal `/^\\d+$/` in the source.  The backslash is doubled
inside the regex literal, so the pattern matches one literal backslash
followed by one or more letters `d` — not digit strings. -/
def matchesEscapedDigitRun : List Char → Bool
  | '\\' :: rest => !rest.isEmpty && rest.all (fun c => c == 'd')
  | _ => false

/-- `normalizeCardinality` (`aas-elements.ts`, lines 130-145).  On string
inputs the falsy-guard before trim only replaces the empty string, and
trimming the empty string yields the empty string, so the guarded trim
equals plain trim. -/
def normalizeCardinality (cardinality : List Char) : List Char :=
  let trimmed := jsTrim cardinality
  match cardinalityAliasMap trimmed with
  | some v => v
  | none =>
    if strStarts trimmed ['['] && strEnds trimmed [']'] then trimmed
    else if strIncludes trimmed ['.', '.'] then '[' :: (trimmed ++ [']'])
    else if matchesEscapedDigitRun trimmed then '[' :: (trimmed ++ [']'])
    else trimmed

/-- `isRequired` (`aas-elements.ts`, lines 93-96). -/
def isRequired (cardinality : List Char) : Bool :=
  let n := normalizeCardinality cardinality
  n == "[1]".data || n == "[1..*]".data

/-- `getMinItems` (`aas-elements.ts`, lines 109-115). -/
def getMinItems (cardinality : List Char) : Nat :=
  let n := normalizeCardinality cardinality
  if n = "[1..*]".data then 1
  else if n = "[0..*]".data ∨ n = "[0..1]".data then 0
  else if n = "[1]".data then 1
  else 0

/-- `getMaxItems` (`aas-elements.ts`, lines 120-125); JS `undefined`
(unbounded) is `none`. -/
def getMaxItems (cardinality : List Char) : Option Nat :=
  let n := normalizeCardinality cardinality
  if strIncludes n ['*'] then none
  else if n = "[0..1]".data ∨ n = "[1]".data then some 1
  else none

/-- UI value kinds as classified by the `Property` branch of
`generateZodSchema` (useTemplateList.ts, lines 180-194) and by the
TypeCoercer of the design document (`uri` never arises from the branch
structure and is omitted). -/
inductive ValueKind where
  | text
  | integer
  | decimal
  | boolean
  | date
  deriving DecidableEq

/-- zod base schemas built by the `Property` branch of `generateZodSchema`:
`z.coerce.number().int()`, `z.coerce.number()`, `z.boolean()`, `z.string()`. -/
inductive PropBase where
  | coerceInt
  | coerceNum
  | zBoolean
  | zString
  deriving DecidableEq

/-- The branch taken by the `Property` arm of `generateZodSchema`
(useTemplateList.ts, lines 180-194): the if/else chain of the source on
substring tests of the declared `valueType`. -/
def valueKindOf (valueType : List Char) : ValueKind :=
  if strIncludes valueType "int".data || strIncludes valueType "Integer".data then .integer
  else if strIncludes valueType "float".data || strIncludes valueType "double".data ||
      strIncludes valueType "decimal".data then .decimal
  else if strIncludes valueType "bool".data then .boolean
  else if strIncludes valueType "date".data then .date
  else .text

/-- The zod schema each branch body builds: integer → `z.coerce.number().int()`,
decimal → `z.coerce.number()`, boolean → `z.boolean()`, date → `z.string()`
(line 191), text → `z.string()` (line 193). -/
def schemaOfKind : ValueKind → PropBase
  | .integer => .coerceInt
  | .decimal => .coerceNum
  | .boolean => .zBoolean
  | .date => .zString
  | .text => .zString

/-- The classification rule exactly as the specification words it: presence of
"int" → integer, "float"/"double"/"decimal" → decimal, "bool" → boolean,
"date" → date, else text.  Stated for comparison with `valueKindOf`. -/
def specValueKind (valueType : List Char) : ValueKind :=
  if strIncludes valueType "int".data then .integer
  else if strIncludes valueType "float".data || strIncludes valueType "double".data ||
      strIncludes valueType "decimal".data then .decimal
  else if strIncludes valueType "bool".data then .boolean
  else if strIncludes valueType "date".data then .date
  else .text

/-- The classification rule amended to match the source: the first clause
also treats presence of "Integer" (capitalised) as integer. -/
def specValueKindAmended (valueType : List Char) : ValueKind :=
  if strIncludes valueType "int".data ∨ strIncludes valueType "Integer".data then .integer
  else if strIncludes valueType "float".data ∨ strIncludes valueType "double".data ∨
      strIncludes valueType "decimal".data then .decimal
  else if strIncludes valueType "bool".data then .boolean
  else if strIncludes valueType "date".data then .date
  else .text

/-- JS runtime values submitted for a form field. -/
inductive JSValue where
  | vStr (s : List Char)
  | vNum (q : ℚ)
  | vBool (b : Bool)
  | vNull
  | vUndef
  deriving DecidableEq

/-- All characters are decimal digits. -/
def allDigits (l : List Char) : Bool := l.all Char.isDigit

/-- Value of a digit string (most significant first). -/
def digitsVal (l : List Char) : Nat := l.foldl (fun acc c => 10 * acc + (c.toNat - 48)) 0

/-- Unsigned decimal literal: digits with an optional decimal point
(`"42"`, `"1."`, `".5"`).  `none` is NaN. -/
def parseUnsignedDec (l : List Char) : Option ℚ :=
  match l.splitOn '.' with
  | [ip] => if ip ≠ [] ∧ allDigits ip then some (digitsVal ip : ℚ) else none
  | [ip, fp] =>
    if (ip ≠ [] ∨ fp ≠ []) ∧ allDigits ip ∧ allDigits fp then
      some ((digitsVal ip : ℚ) + (digitsVal fp : ℚ) / ((10 : ℚ) ^ fp.length))
    else none
  | _ => none

/-- Signed decimal literal; `none` is NaN. -/
def parseSignedDec (l : List Char) : Option ℚ :=
  match l with
  | '-' :: rest => (parseUnsignedDec rest).map Neg.neg
  | '+' :: rest => parseUnsignedDec rest
  | _ => parseUnsignedDec l

/-- JS `Number(x)` on the values that reach `z.coerce.number`: the empty or
blank string is 0, other strings are parsed as decimal literals (the hex
and exponent forms never occur in form values), booleans are 0/1, `null`
is 0, `undefined` is NaN (`none`). -/
def jsToNumber : JSValue → Option ℚ
  | .vNum q => some q
  | .vBool b => some (if b then 1 else 0)
  | .vNull => some 0
  | .vUndef => none
  | .vStr s => if jsTrim s = [] then some 0 else parseSignedDec (jsTrim s)

/-- zod parse of a base schema: `z.coerce.number()` applies `Number(x)` and
fails on NaN, `.int()` additionally requires an integer; `z.boolean()` and
`z.string()` accept exactly their primitive type. -/
def parseBase : PropBase → JSValue → Except Unit JSValue
  | .coerceInt, v =>
    match jsToNumber v with
    | none => .error ()
    | some q => if q.den = 1 then .ok (.vNum q) else .error ()
  | .coerceNum, v =>
    match jsToNumber v with
    | none => .error ()
    | some q => .ok (.vNum q)
  | .zBoolean, v =>
    match v with
    | .vBool b => .ok (.vBool b)
    | _ => .error ()
  | .zString, v =>
    match v with
    | .vStr s => .ok (.vStr s)
    | _ => .error ()

/-- The `value` field schema assembled on line 197 of useTemplateList.ts:
`required ? propSchema : propSchema.optional().nullable()`.  The zod
combinator `.optional()` passes `undefined` through and `.nullable()` passes `null`;
every other value reaches the base schema. -/
def parsePropValue (base : PropBase) (required : Bool) (v : JSValue) : Except Unit JSValue :=
  if required then parseBase base v
  else
    match v with
    | .vNull => .ok .vNull
    | .vUndef => .ok .vUndef
    | _ => parseBase base v

/-- `element.valueType || 'xs:string'` (line 178): JS `||` also replaces
the empty string, the only falsy string. -/
def effectiveValueType (valueType : Option (List Char)) : List Char :=
  match valueType with
  | none => "xs:string".data
  | some s => if s = [] then "xs:string".data else s

/-- `generateElementDefaults`, `Property` branch (line 287 of
useTemplateList.ts): `{ value: element.value ?? '' }`. -/
def propertyDefaultValue (templateValue : Option JSValue) : JSValue :=
  templateValue.getD (.vStr [])

/-- `generateZodSchema`, `SubmodelElementList` branch (line 221):
`element.cardinality` is compared to the literal string `[1..*]` and the
minimum is 1 on equality, else 0 — a raw string
comparison on the unnormalized cardinality. -/
def listSchemaMinItems (cardinality : List Char) : Nat :=
  if cardinality = "[1..*]".data then 1 else 0

/-- Length check of `z.array(itemSchema).min(minItems)` (line 223). -/
def arrayMinAccepts (minItems : Nat) (items : List α) : Bool :=
  decide (minItems ≤ items.length)

section ListEditing

variable {α : Type _}

/-- Splice-style removal at an index. -/
def removeAt : Nat → List α → List α
  | _, [] => []
  | 0, _ :: l => l
  | n + 1, a :: l => a :: removeAt n l

/-- Splice-style insertion at an index (appending when the index is past
the end, as JS `splice` does). -/
def insertAt : Nat → α → List α → List α
  | 0, x, l => x :: l
  | _ + 1, x, [] => [x]
  | n + 1, x, a :: l => a :: insertAt n x l

/-- The `move(from, to)` operation of `useFieldArray` on the items array: remove the item
at `src` and re-insert it at `dst` (the ListField handlers only call it
with in-range indices). -/
def moveItem (l : List α) (src dst : Nat) : List α :=
  match l.get? src with
  | none => l
  | some x => insertAt dst x (removeAt src l)

/-- `handleMoveUp` (ListField.tsx, lines 97-101). -/
def handleMoveUp (l : List α) (index : Nat) : List α :=
  if 0 < index then moveItem l index (index - 1) else l

/-- `handleMoveDown` (ListField.tsx, lines 103-107). -/
def handleMoveDown (l : List α) (index : Nat) : List α :=
  if index < l.length - 1 then moveItem l index (index + 1) else l

end ListEditing

/-- Per-item preserved metadata: qualifiers, embedded specification blocks
and the semantic identifier (design document §3). -/
structure ItemMeta where
  qualifiers : List (List Char)
  embeddedSpecs : List (List Char)
  semanticId : Option (List Char)
  deriving DecidableEq

/-- Modelled from the spec: the List merge step of the backend Hydrator (design
document §4.5), a backend service not among the frontend sources.  For
every `(ItemIdentity, itemFormValue)` pair of the submitted sequence, in
order, the identity is looked up in the PreservedMetadata table: a hit
hydrates the item with the preserved metadata of that identity, a miss (an
item added since compile) hydrates it with the metadata of the item
template as defaults; identities absent from the submission are dropped. -/
def hydrateListItems {α : Type _} (pre : List (Nat × ItemMeta)) (templateMeta : ItemMeta)
    (submitted : List (Nat × α)) : List (Nat × ItemMeta × α) :=
  submitted.map fun p => (p.1, ((pre.lookup p.1).getD templateMeta, p.2))

/-- A trimmed cardinality string on which every arm of
`normalizeCardinality` falls through: it is no alias, it is not wrapped in
brackets, it contains no "..", and it does not match the (escaped) digit
regex.  Such an input is what the specification calls unrecognized. -/
@[reducible] def unrecognizedCardinality (t : List Char) : Prop :=
  cardinalityAliasMap t = none ∧
  (strStarts t ['['] && strEnds t [']']) = false ∧
  strIncludes t ['.', '.'] = false ∧
  matchesEscapedDigitRun t = false


/-! Helper lemmas about the string primitives. -/

theorem ltrimWS_cons_of_neg {a : Char} {l : List Char} (h : isJsWS a = false) :
    ltrimWS (a :: l) = a :: l := by
  simp [ltrimWS, List.dropWhile_cons, h]

theorem ltrimWS_eq_self {l : List Char}
    (h : ∀ a, l.head? = some a → isJsWS a = false) : ltrimWS l = l := by
  cases l with
  | nil => rfl
  | cons a l => exact ltrimWS_cons_of_neg (h a rfl)

theorem ltrimWS_idem : ∀ l : List Char, ltrimWS (ltrimWS l) = ltrimWS l
  | [] => rfl
  | a :: l => by
    cases h : isJsWS a with
    | true =>
      have : ltrimWS (a :: l) = ltrimWS l := by simp [ltrimWS, List.dropWhile_cons, h]
      rw [this]; exact ltrimWS_idem l
    | false =>
      rw [ltrimWS_cons_of_neg h, ltrimWS_cons_of_neg h]

theorem isJsWS_head_ltrimWS : ∀ {l : List Char} {a : Char},
    (ltrimWS l).head? = some a → isJsWS a = false
  | [], _, h => by simp [ltrimWS] at h
  | b :: bs, a, h => by
    cases hb : isJsWS b with
    | true =>
      have heq : ltrimWS (b :: bs) = ltrimWS bs := by simp [ltrimWS, List.dropWhile_cons, hb]
      rw [heq] at h
      exact isJsWS_head_ltrimWS h
    | false =>
      rw [ltrimWS_cons_of_neg hb] at h
      cases h
      exact hb

theorem getLast?_ltrimWS : ∀ (l : List Char), ltrimWS l ≠ [] →
    (ltrimWS l).getLast? = l.getLast?
  | [], h => absurd rfl h
  | b :: bs, h => by
    cases hb : isJsWS b with
    | true =>
      have heq : ltrimWS (b :: bs) = ltrimWS bs := by simp [ltrimWS, List.dropWhile_cons, hb]
      rw [heq] at h ⊢
      have hbs : bs ≠ [] := by
        intro hn
        rw [hn] at h
        exact h rfl
      rw [getLast?_ltrimWS bs h]
      cases bs with
      | nil => exact absurd rfl hbs
      | cons x xs => rw [List.getLast?_cons_cons]
    | false => rw [ltrimWS_cons_of_neg hb]

theorem jsTrim_idem (l : List Char) : jsTrim (jsTrim l) = jsTrim l := by
  by_cases hw : ltrimWS (ltrimWS l).reverse = []
  · unfold jsTrim
    rw [hw]
    rfl
  · have hhead : ∀ a, ((ltrimWS (ltrimWS l).reverse).reverse).head? = some a →
        isJsWS a = false := by
      intro a ha
      rw [List.head?_reverse] at ha
      rw [getLast?_ltrimWS _ hw] at ha
      rw [List.getLast?_reverse] at ha
      exact isJsWS_head_ltrimWS ha
    show (ltrimWS (ltrimWS ((ltrimWS (ltrimWS l).reverse).reverse)).reverse).reverse =
      (ltrimWS (ltrimWS l).reverse).reverse
    rw [ltrimWS_eq_self hhead, List.reverse_reverse, ltrimWS_idem]

theorem jsTrim_eq_self_of_ends {l : List Char}
    (h1 : ∀ a, l.head? = some a → isJsWS a = false)
    (h2 : ∀ a, l.getLast? = some a → isJsWS a = false) : jsTrim l = l := by
  show (ltrimWS (ltrimWS l).reverse).reverse = l
  rw [ltrimWS_eq_self h1]
  rw [ltrimWS_eq_self (by intro a ha; rw [List.head?_reverse] at ha; exact h2 a ha)]
  exact List.reverse_reverse l

theorem head?_of_strStarts_single {l : List Char} {a : Char}
    (h : strStarts l [a] = true) : l.head? = some a := by
  cases l with
  | nil => simp [strStarts] at h
  | cons b bs =>
    have : (b == a) = true := by
      by_contra hc
      rw [strStarts, Bool.and_eq_true] at h
      exact hc h.1
    rw [List.head?_cons]
    rw [beq_iff_eq] at this
    rw [this]

theorem getLast?_of_strEnds_single {l : List Char} {a : Char}
    (h : strEnds l [a] = true) : l.getLast? = some a := by
  unfold strEnds at h
  have h2 : strStarts l.reverse [a] = true := by simpa using h
  have := head?_of_strStarts_single h2
  rwa [List.head?_reverse] at this

theorem strStarts_cons_self (a : Char) (l : List Char) : strStarts (a :: l) [a] = true := by
  simp [strStarts]

theorem strEnds_append_single (l : List Char) (a : Char) : strEnds (l ++ [a]) [a] = true := by
  unfold strEnds
  rw [List.reverse_append]
  simp [strStarts]

theorem cardinalityAliasMap_eq_none_of_head {t : List Char}
    (h : t.head? = some '[') : cardinalityAliasMap t = none := by
  have h1 : ¬ t = "ZeroToOne".data := fun he => absurd (he ▸ h) (by decide)
  have h2 : ¬ t = "ZeroToMany".data := fun he => absurd (he ▸ h) (by decide)
  have h3 : ¬ t = "OneToMany".data := fun he => absurd (he ▸ h) (by decide)
  have h4 : ¬ t = "One".data := fun he => absurd (he ▸ h) (by decide)
  have h5 : ¬ t = "Zero".data := fun he => absurd (he ▸ h) (by decide)
  unfold cardinalityAliasMap
  rw [if_neg h1, if_neg h2, if_neg h3, if_neg h4, if_neg h5]

theorem normalize_alias_value {t v : List Char} (h : cardinalityAliasMap t = some v) :
    normalizeCardinality v = v := by
  unfold cardinalityAliasMap at h
  split_ifs at h
  all_goals (injection h with h; subst h; decide)

theorem normalize_of_bracketed {l : List Char}
    (h1 : strStarts l ['['] = true) (h2 : strEnds l [']'] = true) :
    normalizeCardinality l = l := by
  have hh : l.head? = some '[' := head?_of_strStarts_single h1
  have hl : l.getLast? = some ']' := getLast?_of_strEnds_single h2
  have ht : jsTrim l = l := by
    refine jsTrim_eq_self_of_ends ?_ ?_
    · intro a ha
      rw [ha] at hh
      cases hh
      decide
    · intro a ha
      rw [ha] at hl
      cases hl
      decide
  simp only [normalizeCardinality]
  rw [ht, cardinalityAliasMap_eq_none_of_head hh]
  simp [h1, h2]

/-- C2: for every cardinality string whose trimmed form is unrecognized,
`normalizeCardinality` returns the trimmed input itself unresolved,
`getMinItems` returns 0 and `getMaxItems` returns `undefined` (unbounded);
the three functions are total Lean functions, so no modelled input makes
them fail. -/
theorem unrecognized_cardinality_resolves_soft (c : List Char)
    (h : unrecognizedCardinality (jsTrim c)) :
    normalizeCardinality c = jsTrim c ∧ getMinItems c = 0 ∧ getMaxItems c = none := by
  obtain ⟨ha, hb, hd, hr⟩ := h
  have hn : normalizeCardinality c = jsTrim c := by
    simp only [normalizeCardinality]
    rw [ha, hb, hd, hr]
    rfl
  have h1 : jsTrim c ≠ "[1..*]".data := fun he => absurd (he ▸ hb) (by decide)
  have h2 : jsTrim c ≠ "[0..*]".data := fun he => absurd (he ▸ hb) (by decide)
  have h3 : jsTrim c ≠ "[0..1]".data := fun he => absurd (he ▸ hb) (by decide)
  have h4 : jsTrim c ≠ "[1]".data := fun he => absurd (he ▸ hb) (by decide)
  refine ⟨hn, ?_, ?_⟩
  · simp only [getMinItems, hn]
    rw [if_neg h1, if_neg (by tauto), if_neg h4]
  · simp only [getMaxItems, hn]
    split_ifs with hs hx
    · rfl
    · rcases hx with hx | hx
      · exact absurd hx h3
      · exact absurd hx h4
    · rfl

/-- C2 witness: the string "n/a" is unrecognized, resolves to itself and is
treated as `(0, unbounded)`. -/
theorem unrecognized_cardinality_resolves_soft_witness :
    unrecognizedCardinality (jsTrim "n/a".data) ∧
    (normalizeCardinality "n/a".data = jsTrim "n/a".data ∧
      getMinItems "n/a".data = 0 ∧ getMaxItems "n/a".data = none) :=
  ⟨by decide, unrecognized_cardinality_resolves_soft "n/a".data (by decide)⟩

/-- C3: `normalizeCardinality` maps each named-enum alias to its bracket
form, and returns every input that already starts with an opening and ends
with a closing square bracket unchanged. -/
theorem normalizeCardinality_aliases_and_bracket_fixed :
    (normalizeCardinality "ZeroToOne".data = "[0..1]".data ∧
      normalizeCardinality "ZeroToMany".data = "[0..*]".data ∧
      normalizeCardinality "OneToMany".data = "[1..*]".data ∧
      normalizeCardinality "One".data = "[1]".data ∧
      normalizeCardinality "Zero".data = "[0]".data) ∧
    ∀ c : List Char, strStarts c ['['] = true → strEnds c [']'] = true →
      normalizeCardinality c = c :=
  ⟨by decide, fun _ h1 h2 => normalize_of_bracketed h1 h2⟩

/-- C3 witness: a concrete bracketed input is returned unchanged. -/
theorem normalizeCardinality_aliases_and_bracket_fixed_witness :
    strStarts "[2..5]".data ['['] = true ∧ strEnds "[2..5]".data [']'] = true ∧
    normalizeCardinality "[2..5]".data = "[2..5]".data :=
  ⟨by decide, by decide,
    normalizeCardinality_aliases_and_bracket_fixed.2 "[2..5]".data (by decide) (by decide)⟩

/-- C4: `normalizeCardinality` is idempotent on every input string. -/
theorem normalizeCardinality_idem (c : List Char) :
    normalizeCardinality (normalizeCardinality c) = normalizeCardinality c := by
  rcases halias : cardinalityAliasMap (jsTrim c) with _ | v
  · cases hb : (strStarts (jsTrim c) ['['] && strEnds (jsTrim c) [']']) with
    | true =>
      have hc : normalizeCardinality c = jsTrim c := by
        simp only [normalizeCardinality]
        rw [halias, hb]
        rfl
      rw [hc]
      rw [Bool.and_eq_true] at hb
      exact normalize_of_bracketed hb.1 hb.2
    | false =>
      cases hd : strIncludes (jsTrim c) ['.', '.'] with
      | true =>
        have hc : normalizeCardinality c = '[' :: (jsTrim c ++ [']']) := by
          simp only [normalizeCardinality]
          rw [halias, hb, hd]
          rfl
        rw [hc]
        exact normalize_of_bracketed (strStarts_cons_self _ _)
          (strEnds_append_single ('[' :: jsTrim c) ']')
      | false =>
        cases hr : matchesEscapedDigitRun (jsTrim c) with
        | true =>
          have hc : normalizeCardinality c = '[' :: (jsTrim c ++ [']']) := by
            simp only [normalizeCardinality]
            rw [halias, hb, hd, hr]
            rfl
          rw [hc]
          exact normalize_of_bracketed (strStarts_cons_self _ _)
            (strEnds_append_single ('[' :: jsTrim c) ']')
        | false =>
          have hc : normalizeCardinality c = jsTrim c := by
            simp only [normalizeCardinality]
            rw [halias, hb, hd, hr]
            rfl
          rw [hc]
          simp only [normalizeCardinality]
          rw [jsTrim_idem, halias, hb, hd, hr]
          rfl
  · have hc : normalizeCardinality c = v := by
      simp only [normalizeCardinality]
      rw [halias]
    rw [hc]
    exact normalize_alias_value halias

/-- C5: a cardinality is required exactly when its resolved minimum is at
least 1. -/
theorem isRequired_iff_min_ge_one (c : List Char) :
    isRequired c = true ↔ 1 ≤ getMinItems c := by
  simp only [isRequired, getMinItems]
  generalize normalizeCardinality c = n
  by_cases h1 : n = "[1..*]".data
  · subst h1; decide
  · by_cases h2 : n = "[1]".data
    · subst h2; decide
    · by_cases h3 : n = "[0..*]".data
      · subst h3; decide
      · by_cases h4 : n = "[0..1]".data
        · subst h4; decide
        · rw [if_neg h1, if_neg (by tauto), if_neg h2]
          simp [beq_iff_eq, h1, h2]

/-- C6: resolving the cardinality string in bracket form one-to-many yields
minimum 1 and an unbounded maximum. -/
theorem cardinality_one_to_many_resolves :
    getMinItems "[1..*]".data = 1 ∧ getMaxItems "[1..*]".data = none := by decide

/-- C10: a bare numeric cardinality is not canonicalized (the doubled
backslash in the regex prevents it): normalizing "1" returns "1", not
"[1]", so "1" is not required and has minimum 0, while "[1]" is required
with minimum 1. -/
theorem bare_numeric_cardinality_unnormalized :
    normalizeCardinality "1".data = "1".data ∧
    normalizeCardinality "1".data ≠ "[1]".data ∧
    isRequired "1".data = false ∧ getMinItems "1".data = 0 ∧
    isRequired "[1]".data = true ∧ getMinItems "[1]".data = 1 := by decide

/-- C7 counterexample: the declared type string "Integer" contains none of
the lowercase markers of the claimed rule, so the rule classifies it as
text, but the source also tests for the capitalised substring "Integer"
and classifies it as integer. -/
theorem valueKind_spec_rule_fails_on_Integer :
    valueKindOf "Integer".data = ValueKind.integer ∧
    specValueKind "Integer".data = ValueKind.text ∧
    valueKindOf "Integer".data ≠ specValueKind "Integer".data := by decide

/-- C7 amended: the value kind of a Property is chosen by substring
classification in priority order, where the first clause fires on presence
of "int" or of the capitalised "Integer"; the remaining clauses are as the
claim states them. -/
theorem valueKind_classification_amended (valueType : List Char) :
    valueKindOf valueType = specValueKindAmended valueType := by
  simp only [valueKindOf, specValueKindAmended, Bool.or_eq_true, or_assoc]

/-- C8 (code bug): the zod schema generated for an optional boolean-kind
Property is `z.boolean().optional().nullable()`, which rejects the empty
string with a type error instead of treating it as absent — even though
the very same file initialises every Property form value to the empty
string by default. -/
theorem optional_boolean_empty_string_rejected :
    isRequired "[0..1]".data = false ∧
    valueKindOf (effectiveValueType (some "xs:boolean".data)) = ValueKind.boolean ∧
    propertyDefaultValue none = JSValue.vStr [] ∧
    parsePropValue (schemaOfKind (valueKindOf (effectiveValueType (some "xs:boolean".data))))
      (isRequired "[0..1]".data) (JSValue.vStr []) = Except.error () :=
  ⟨by decide, by decide, rfl, rfl⟩

/-- C9 counterexample: for the alias "OneToMany" the list schema of
`generateZodSchema` enforces minimum 0 (the raw comparison with the literal
bracket string fails), while `getMinItems` resolves it to 1. -/
theorem list_min_mismatch_OneToMany :
    listSchemaMinItems "OneToMany".data = 0 ∧
    getMinItems "OneToMany".data = 1 ∧
    listSchemaMinItems "OneToMany".data ≠ getMinItems "OneToMany".data := by decide

/-- C9 amended: the minimum item count enforced by the generated list
schema equals `getMinItems` exactly on the cardinality strings that either
are the literal bracket one-to-many form, or whose normalization is
neither that form nor the bracket singleton form. -/
theorem list_min_agrees_on_canonical (c : List Char)
    (h : c = "[1..*]".data ∨
      (normalizeCardinality c ≠ "[1..*]".data ∧ normalizeCardinality c ≠ "[1]".data)) :
    listSchemaMinItems c = getMinItems c := by
  rcases h with h | ⟨h1, h2⟩
  · subst h; decide
  · have hc : c ≠ "[1..*]".data := by
      intro he
      apply h1
      rw [he]
      decide
    simp only [listSchemaMinItems, getMinItems]
    rw [if_neg hc, if_neg h1]
    split_ifs with h3
    · rfl
    · rfl

/-- C9 witness: on the literal bracket form both sides enforce minimum 1. -/
theorem list_min_agrees_on_canonical_witness :
    listSchemaMinItems "[1..*]".data = getMinItems "[1..*]".data :=
  list_min_agrees_on_canonical "[1..*]".data (Or.inl rfl)

/-- C1: reordering a 3-item list with identities a, b, c into the order
c, a, b — reachable through the two move-up handler calls of ListField —
yields, under the hydrator list merge, an instance tree in which the item
metadata attached to each identity equals the metadata originally
preserved for that identity regardless of its new position, and the
submitted identity sequence is a permutation of the original one, so
reordering neither creates nor destroys identities. -/
theorem reorder_preserves_item_metadata {α : Type} (a b c : Nat)
    (hab : a ≠ b) (hac : a ≠ c) (hbc : b ≠ c)
    (ma mb mc tm : ItemMeta) (va vb vc : α) :
    handleMoveUp (handleMoveUp [(a, va), (b, vb), (c, vc)] 2) 1 = [(c, vc), (a, va), (b, vb)] ∧
    hydrateListItems [(a, ma), (b, mb), (c, mc)] tm [(c, vc), (a, va), (b, vb)] =
      [(c, (mc, vc)), (a, (ma, va)), (b, (mb, vb))] ∧
    List.Perm (([(c, vc), (a, va), (b, vb)] : List (Nat × α)).map Prod.fst)
      ([(a, va), (b, vb), (c, vc)].map Prod.fst) := by
  refine ⟨rfl, ?_, ?_⟩
  · have h1 : (c == a) = false := beq_eq_false_iff_ne.mpr (Ne.symm hac)
    have h2 : (c == b) = false := beq_eq_false_iff_ne.mpr (Ne.symm hbc)
    have h3 : (b == a) = false := beq_eq_false_iff_ne.mpr (Ne.symm hab)
    simp [hydrateListItems, List.lookup, h1, h2, h3]
  · simp only [List.map]
    exact (List.Perm.swap a c [b]).trans (List.Perm.cons a (List.Perm.swap b c []))

/-- C1 witness: identities 0, 1, 2 with distinct qualifier metadata,
values 10, 11, 12, submitted in order 2, 0, 1. -/
theorem reorder_preserves_item_metadata_witness :
    (0 : Nat) ≠ 1 ∧ (0 : Nat) ≠ 2 ∧ (1 : Nat) ≠ 2 ∧
    (handleMoveUp (handleMoveUp [(0, (10 : Nat)), (1, 11), (2, 12)] 2) 1 =
        [(2, 12), (0, 10), (1, 11)] ∧
      hydrateListItems
          [(0, ⟨["qa".data], [], none⟩), (1, ⟨["qb".data], [], none⟩),
            (2, ⟨["qc".data], [], none⟩)]
          ⟨[], [], none⟩ [(2, (12 : Nat)), (0, 10), (1, 11)] =
        [(2, (⟨["qc".data], [], none⟩, 12)), (0, (⟨["qa".data], [], none⟩, 10)),
          (1, (⟨["qb".data], [], none⟩, 11))] ∧
      List.Perm (([(2, (12 : Nat)), (0, 10), (1, 11)] : List (Nat × Nat)).map Prod.fst)
        ([(0, (10 : Nat)), (1, 11), (2, 12)].map Prod.fst)) :=
  ⟨by decide, by decide, by decide,
    reorder_preserves_item_metadata 0 1 2 (by decide) (by decide) (by decide)
      ⟨["qa".data], [], none⟩ ⟨["qb".data], [], none⟩ ⟨["qc".data], [], none⟩
      ⟨[], [], none⟩ 10 11 12⟩
